import Mathlib

/-!
Shallow embedding of the python-inject dependency-injection core.

Source files embedded directly:
  * `src/inject/injections.py` — `InjectionPoint`, `AttributeInjection`,
    `NamedAttributeInjection`, `ClassAttributeInjection`, `ParamInjection`.

The binding/resolution/scope engine (`inject/injectors.py`, `inject/scopes.py`,
`inject/utils.py`) is part of this repository but is not present under `src/`
(only its test file `inject_tests/test_injectors.py` and its callers are), so
those parts are modelled from the spec; each such definition's doc comment
starts with `Modelled from the spec:`.

Python object identity is modelled by numeric `id` fields; constructed
instances are `Value.obj i` where `i` is drawn from a fresh-id counter in
`InvokeState`, so two separate constructions yield values that are distinct
by identity.
-/

set_option autoImplicit false

namespace Inject

/-- A Python runtime value as far as the claims need it: a constructed
instance with an identity, a plain string, the `super_param` sentinel object,
and the absent-value sentinel returned by the `none=True` fallback. -/
inductive Value where
  | obj (id : Nat)
  | str (s : String)
  | superParamV
  | absent
deriving DecidableEq, Repr

/-- The `super_param` module-level sentinel of `injections.py`: an empty
object used to mark that a keyword argument is injected in a super class. -/
def super_param : Value := Value.superParamV

/-- The error taxonomy: `NoInjectorRegistered`, `NoProviderError`,
`NoParamError` (carrying the rejected parameter name), and an arbitrary
construction failure raised by a user-supplied constructor. -/
inductive Err where
  | noInjectorRegistered
  | noProvider
  | noParamError (name : String)
  | constructionError (cid : Nat)
deriving DecidableEq, Repr

/-- A user-supplied zero-argument callable (a class or factory): identified
by `id`, and flagged by whether invoking it raises a construction error. -/
structure Ctor where
  id : Nat
  fails : Bool
deriving DecidableEq, Repr

/-- A request key: either a callable key (a class, which can serve as its own
provider) or a plain non-callable key. Keys are compared by equality only. -/
inductive Key where
  | callableKey (c : Ctor)
  | plainKey (n : Nat)
deriving DecidableEq, Repr

/-- The constructor behind a callable key, `none` for a non-callable key. -/
def Key.asCtor : Key → Option Ctor
  | .callableKey c => some c
  | .plainKey _ => Option.none

/-- Whether a key is callable. -/
def Key.callable (k : Key) : Bool := k.asCtor.isSome

/-- Mutable runtime state threaded through every provider invocation: a
counter handing out fresh instance identities. The counter advances exactly
when a constructor actually runs, so it doubles as an invocation count. -/
structure InvokeState where
  counter : Nat
deriving DecidableEq, Repr

/-- Invoking a constructor: either a construction error, or a fresh instance
whose identity is the current counter value. -/
def invokeCtor (c : Ctor) (s : InvokeState) : Except Err (Value × InvokeState) :=
  if c.fails then .error (.constructionError c.id)
  else .ok (Value.obj s.counter, ⟨s.counter + 1⟩)

/-- Modelled from the spec: a stored zero-argument provider
(`inject/injectors.py` / `inject/scopes.py` are not under `src/`). Either a
raw "call this constructor" provider, an instance provider returning a fixed
value, or an application-scoped provider wrapping a constructor together with
its memoization cell. -/
inductive Provider where
  | raw (c : Ctor)
  | instval (v : Value)
  | appScoped (c : Ctor) (cache : Option Value)
deriving DecidableEq, Repr

/-- Modelled from the spec: invoking a provider. A raw provider calls its
constructor every time; an instance provider returns its value; an
application-scoped provider calls the constructor once, caches the result,
and afterwards returns the cached value without calling again. A failed
construction is never cached. -/
def invokeProvider : Provider → InvokeState → Except Err (Value × Provider × InvokeState)
  | .raw c, s =>
    match invokeCtor c s with
    | .error e => .error e
    | .ok (v, s') => .ok (v, .raw c, s')
  | .instval v, s => .ok (v, .instval v, s)
  | .appScoped c Option.none, s =>
    match invokeCtor c s with
    | .error e => .error e
    | .ok (v, s') => .ok (v, .appScoped c (some v), s')
  | .appScoped c (some v), s => .ok (v, .appScoped c (some v), s)

/-- First-match association-list lookup (Python dict read). -/
def lookupA {α β : Type} [DecidableEq α] : List (α × β) → α → Option β
  | [], _ => Option.none
  | (a, b) :: t, k => if a = k then some b else lookupA t k

/-- In-place association-list update (Python dict write): replaces the first
entry with the given key, appending a new entry when the key is absent. -/
def setA {α β : Type} [DecidableEq α] : List (α × β) → α → β → List (α × β)
  | [], k, v => [(k, v)]
  | (a, b) :: t, k, v => if a = k then (k, v) :: t else (a, b) :: setA t k v

theorem lookupA_setA_self {α β : Type} [DecidableEq α] (l : List (α × β)) (k : α) (v : β) :
    lookupA (setA l k v) k = some v := by
  induction l with
  | nil => simp [setA, lookupA]
  | cons hd t ih =>
    obtain ⟨a, b⟩ := hd
    by_cases h : a = k
    · simp [setA, lookupA, h]
    · simp [setA, lookupA, h, ih]

theorem lookupA_setA_ne {α β : Type} [DecidableEq α] (l : List (α × β)) (k k' : α) (v : β)
    (h : k ≠ k') : lookupA (setA l k v) k' = lookupA l k' := by
  induction l with
  | nil => simp [setA, lookupA, h]
  | cons hd t ih =>
    obtain ⟨a, b⟩ := hd
    by_cases ha : a = k
    · subst ha; simp [setA, lookupA, h]
    · simp [setA, lookupA, ha, ih]

theorem setA_setA {α β : Type} [DecidableEq α] (l : List (α × β)) (k : α) (v w : β) :
    setA (setA l k v) k w = setA l k w := by
  induction l with
  | nil => simp [setA]
  | cons hd t ih =>
    obtain ⟨a, b⟩ := hd
    by_cases h : a = k
    · simp [setA, h]
    · simp [setA, h, ih]

/-- Modelled from the spec: an `Injector` owns a binding table mapping keys
to providers and a `default_providers` flag; `id` models Python object
identity of the injector. -/
structure Injector where
  id : Nat
  default_providers : Bool
  bindings : List (Key × Provider)
deriving DecidableEq, Repr

/-- A binding target: a callable (class/factory), or a pre-built
non-callable instance value. -/
inductive Target where
  | call (c : Ctor)
  | value (v : Value)
deriving DecidableEq, Repr

/-- The built-in scopes beyond no-scope: the application scope. No-scope is
represented by passing `Option.none` as the scope argument. -/
inductive Scope where
  | app
deriving DecidableEq, Repr

/-- Modelled from the spec: provider synthesis for `bind(key, to=target,
scope=...)`. A callable target becomes a raw call-target provider, wrapped by
the application scope when one is supplied; a non-callable target becomes an
instance provider unconditionally, independent of scope. -/
def make_provider (target : Target) (scope : Option Scope) : Provider :=
  match target with
  | .value v => .instval v
  | .call c =>
    match scope with
    | Option.none => .raw c
    | some .app => .appScoped c Option.none

/-- Modelled from the spec: `Injector.bind` stores the synthesized provider
under the key, overwriting any previous binding (last write wins). -/
def Injector.bind (inj : Injector) (k : Key) (target : Target) (scope : Option Scope) :
    Injector :=
  { inj with bindings := setA inj.bindings k (make_provider target scope) }

/-- Modelled from the spec: `Injector.get_provider` returns the stored
provider for a bound key; for an unbound key it synthesizes an unscoped
call-the-key-directly provider (not stored) exactly when `default_providers`
is enabled and the key is callable, and fails with `NoProvider` otherwise. -/
def Injector.get_provider (inj : Injector) (k : Key) : Except Err Provider :=
  match lookupA inj.bindings k with
  | some p => .ok p
  | Option.none =>
    match k.asCtor with
    | some c => if inj.default_providers then .ok (.raw c) else .error .noProvider
    | Option.none => .error .noProvider

/-- Modelled from the spec: `Injector.get_instance` is `get_provider(key)()`.
When the provider came from the binding table, its post-invocation state
(the application-scope cache lives inside the stored provider) is written
back to the table; a synthesized default provider is not stored. -/
def Injector.get_instance (inj : Injector) (k : Key) (s : InvokeState) :
    Except Err (Value × Injector × InvokeState) :=
  match inj.get_provider k with
  | .error e => .error e
  | .ok p =>
    match invokeProvider p s with
    | .error e => .error e
    | .ok (v, p', s') =>
      if (lookupA inj.bindings k).isSome then
        .ok (v, { inj with bindings := setA inj.bindings k p' }, s')
      else
        .ok (v, inj, s')

/-- Modelled from the spec: the process-wide registry slot holding at most
one active injector. -/
structure Registry where
  slot : Option Injector
deriving DecidableEq, Repr

/-- Modelled from the spec: `register(injector)` sets the slot, replacing
any previous occupant. -/
def register (r : Registry) (inj : Injector) : Registry :=
  let _ := r
  ⟨some inj⟩

/-- Modelled from the spec: `is_registered(injector)` reports whether the
slot currently holds exactly this injector (identity comparison). -/
def is_registered (r : Registry) (inj : Injector) : Bool :=
  match r.slot with
  | some a => a.id == inj.id
  | Option.none => false

/-- Modelled from the spec: `unregister(injector=None)`. With no argument it
unconditionally clears the slot; with an argument it clears the slot only
when the slot holds exactly that injector, and is a no-op otherwise. -/
def unregister (r : Registry) (inj : Option Injector) : Registry :=
  match inj with
  | Option.none => ⟨Option.none⟩
  | some i =>
    match r.slot with
    | some a => if a.id == i.id then ⟨Option.none⟩ else r
    | Option.none => r

/-- Modelled from the spec: module-level `get_instance(key, none=...)`. With
no registered injector it fails with `NoInjectorRegistered`, unless the
`none` flag is set, in which case it returns the absent-value sentinel.
With a registered injector it delegates; a `NoProvider` lookup failure is
converted to the sentinel when the `none` flag is set, while every other
failure (in particular a construction error) propagates. -/
def get_instance (r : Registry) (k : Key) (noneArg : Bool) (s : InvokeState) :
    Except Err (Value × Registry × InvokeState) :=
  match r.slot with
  | Option.none =>
    if noneArg then .ok (Value.absent, r, s) else .error .noInjectorRegistered
  | some inj =>
    match inj.get_instance k s with
    | .ok (v, inj', s') => .ok (v, ⟨some inj'⟩, s')
    | .error Err.noProvider =>
      if noneArg then .ok (Value.absent, r, s) else .error .noProvider
    | .error e => .error e

/-- `InjectionPoint` from `injections.py`: the immutable pair of a requested
key (`type`) and the allow-absent flag (`none`). -/
structure InjectionPoint where
  type : Key
  none : Bool
deriving DecidableEq, Repr

/-- `InjectionPoint.get_instance` from `injections.py`: returns
`get_instance(self.type, none=self.none)` from the module-level registry. -/
def InjectionPoint.get_instance (p : InjectionPoint) (r : Registry) (s : InvokeState) :
    Except Err (Value × Registry × InvokeState) :=
  Inject.get_instance r p.type p.none s

/-- `ClassAttributeInjection` from `injections.py`: a class descriptor that
resolves the dependency on every access. -/
structure ClassAttributeInjection where
  injection : InjectionPoint
deriving DecidableEq, Repr

/-- `ClassAttributeInjection.__get__` from `injections.py`: ignores the
instance and owner and returns `self.injection.get_instance()`. -/
def ClassAttributeInjection.descGet (c : ClassAttributeInjection)
    (instance_ : Option (List (String × Value))) (r : Registry) (s : InvokeState) :
    Except Err (Value × Registry × InvokeState) :=
  let _ := instance_
  c.injection.get_instance r s

/-- A Python instance as far as attribute injection needs it: its
`__dict__`. -/
structure PyInstance where
  dict : List (String × Value)
deriving DecidableEq, Repr

/-- `AttributeInjection` from `injections.py`: a non-data descriptor holding
a lazily discovered attribute name (`attr`, starts unset), the `reinject`
flag, and its injection point. -/
structure AttributeInjection where
  attr : Option String
  reinject : Bool
  injection : InjectionPoint
deriving DecidableEq, Repr

/-- `AttributeInjection.__get__` on an instance (the `instance is None`
branch returning the descriptor itself is not modelled): discovers and
caches the attribute name on first use, resolves the injection point, and,
unless `reinject` is set, stores the resolved object in the instance
`__dict__` under that name. `get_attrname_by_value` lives in `inject/utils.py`,
which is not under `src/`; modelled from the spec, it yields the owner-class
attribute name under which this descriptor is stored, supplied here as
`ownerAttr`. -/
def AttributeInjection.descGet (d : AttributeInjection) (ownerAttr : String)
    (inst : PyInstance) (r : Registry) (s : InvokeState) :
    Except Err (Value × AttributeInjection × PyInstance × Registry × InvokeState) :=
  let attr := d.attr.getD ownerAttr
  let d' : AttributeInjection := { d with attr := some attr }
  match d.injection.get_instance r s with
  | .error e => .error e
  | .ok (v, r', s') =>
    if d.reinject then .ok (v, d', inst, r', s')
    else .ok (v, d', ⟨setA inst.dict attr v⟩, r', s')

/-- Python attribute access on an instance whose class holds an
`AttributeInjection` under `name`: the descriptor defines only `__get__`
(a non-data descriptor), so an instance `__dict__` entry under `name`, when
present, shadows it; otherwise the descriptor's `__get__` runs. -/
def getattrAttributeInjection (name : String) (d : AttributeInjection)
    (inst : PyInstance) (r : Registry) (s : InvokeState) :
    Except Err (Value × AttributeInjection × PyInstance × Registry × InvokeState) :=
  match lookupA inst.dict name with
  | some v => .ok (v, d, inst, r, s)
  | Option.none => d.descGet name inst r s

/-- `NamedAttributeInjection` from `injections.py`: like
`AttributeInjection` but with the target attribute name fixed at
construction. -/
structure NamedAttributeInjection where
  attr : String
  reinject : Bool
  injection : InjectionPoint
deriving DecidableEq, Repr

/-- `NamedAttributeInjection.__get__` on an instance: resolves the injection
point and, unless `reinject` is set, stores the resolved object in the
instance `__dict__` under `self.attr`. -/
def NamedAttributeInjection.descGet (d : NamedAttributeInjection)
    (inst : PyInstance) (r : Registry) (s : InvokeState) :
    Except Err (Value × PyInstance × Registry × InvokeState) :=
  match d.injection.get_instance r s with
  | .error e => .error e
  | .ok (v, r', s') =>
    if d.reinject then .ok (v, inst, r', s')
    else .ok (v, ⟨setA inst.dict d.attr v⟩, r', s')

/-- Python attribute access for a `NamedAttributeInjection` stored in the
owner class under its own `attr` name (the usage shown in the class doc
comment): as a non-data descriptor it is shadowed by an instance `__dict__`
entry under that name. -/
def getattrNamedAttributeInjection (d : NamedAttributeInjection)
    (inst : PyInstance) (r : Registry) (s : InvokeState) :
    Except Err (Value × PyInstance × Registry × InvokeState) :=
  match lookupA inst.dict d.attr with
  | some v => .ok (v, inst, r, s)
  | Option.none => d.descGet inst r s

/-- A Python code object as far as `ParamInjection.add_injection` reads it:
`co_varnames` (parameter names followed by local variable names) and the two
`co_flags` bits `0x04` (takes `*args`) and `0x08` (takes `**kwargs`). -/
structure FuncCode where
  co_varnames : List String
  co_flags_varargs : Bool
  co_flags_kwargs : Bool
deriving DecidableEq, Repr

/-- The wrapper produced by `ParamInjection.create_wrapper`: the wrapped
function's code object and the wrapper's `injections` dict. -/
structure Wrapper where
  code : FuncCode
  injections : List (String × InjectionPoint)
deriving DecidableEq, Repr

/-- `ParamInjection.add_injection` from `injections.py`: when the wrapped
function takes neither `*args` nor `**kwargs` and the injected name is not
among its code object's `co_varnames`, raises `NoParamError`; otherwise
records the injection in the wrapper's `injections` dict. -/
def ParamInjection.add_injection (w : Wrapper) (name : String)
    (injection : InjectionPoint) : Except Err Wrapper :=
  if w.code.co_flags_varargs = false ∧ w.code.co_flags_kwargs = false then
    if name ∈ w.code.co_varnames then
      .ok { w with injections := setA w.injections name injection }
    else .error (.noParamError name)
  else .ok { w with injections := setA w.injections name injection }

/-- The loop body of `injection_wrapper` in `ParamInjection.create_wrapper`:
for each registered injected name, when the name is given as a keyword with
a value other than `super_param` it is skipped, otherwise the injection
point is resolved and its result written into the keyword arguments. -/
def runInjections : List (String × InjectionPoint) → List (String × Value) →
    Registry → InvokeState →
    Except Err (List (String × Value) × Registry × InvokeState)
  | [], kwargs, r, s => .ok (kwargs, r, s)
  | (name, ip) :: rest, kwargs, r, s =>
    match lookupA kwargs name with
    | some v =>
      if v = super_param then
        match ip.get_instance r s with
        | .error e => .error e
        | .ok (v', r', s') => runInjections rest (setA kwargs name v') r' s'
      else runInjections rest kwargs r s
    | Option.none =>
      match ip.get_instance r s with
      | .error e => .error e
      | .ok (v', r', s') => runInjections rest (setA kwargs name v') r' s'

/-- The positional and keyword arguments with which the wrapped function is
finally called. -/
structure CallRecord where
  args : List Value
  kwargs : List (String × Value)
deriving DecidableEq, Repr

/-- `injection_wrapper` from `ParamInjection.create_wrapper`: fills in the
non-given keyword arguments from the injections and calls the wrapped
function with the positional arguments untouched; the positional arguments
are never inspected. -/
def injection_wrapper (injections : List (String × InjectionPoint))
    (args : List Value) (kwargs : List (String × Value))
    (r : Registry) (s : InvokeState) :
    Except Err (CallRecord × Registry × InvokeState) :=
  match runInjections injections kwargs r s with
  | .error e => .error e
  | .ok (kw, r', s') => .ok (⟨args, kw⟩, r', s')

/-- C1: an `InjectionPoint` built from a key and an allow-absent flag
delegates every `get_instance()` call to the module-level registry
`get_instance(key, none=allow_absent)` and returns its result unchanged; it
holds no state beyond the immutable `(type, none)` pair and caches nothing,
so each access — in particular `ClassAttributeInjection.__get__`, for any
instance — performs a fresh resolution through the registry. -/
theorem claim1_injection_point_delegates (p : InjectionPoint)
    (c : ClassAttributeInjection) (instance_ : Option (List (String × Value)))
    (r : Registry) (s : InvokeState) :
    p.get_instance r s = Inject.get_instance r p.type p.none s ∧
    c.descGet instance_ r s
      = Inject.get_instance r c.injection.type c.injection.none s :=
  ⟨rfl, rfl⟩

/-- C3: with no injector registered, the module-level `get_instance(key)`
fails with `NoInjectorRegistered` while the same call with `none=True`
returns the absent-value sentinel; with an injector registered, the
`none=True` fallback converts a `NoProvider` lookup failure into the
sentinel, while a construction error raised by a found provider still
propagates. -/
theorem claim3_none_fallback (k : Key) (s : InvokeState) :
    Inject.get_instance ⟨Option.none⟩ k false s = .error .noInjectorRegistered ∧
    Inject.get_instance ⟨Option.none⟩ k true s
      = .ok (Value.absent, ⟨Option.none⟩, s) ∧
    (∀ inj : Injector, inj.get_instance k s = .error .noProvider →
      Inject.get_instance ⟨some inj⟩ k true s
        = .ok (Value.absent, ⟨some inj⟩, s)) ∧
    (∀ (inj : Injector) (cid : Nat),
      inj.get_instance k s = .error (.constructionError cid) →
      Inject.get_instance ⟨some inj⟩ k true s
        = .error (.constructionError cid)) := by
  refine ⟨rfl, rfl, fun inj h => ?_, fun inj cid h => ?_⟩
  · simp [Inject.get_instance, h]
  · simp [Inject.get_instance, h]

/-- Witness for C3: a registry with no slot, an injector with no bindings
and default providers disabled (a `NoProvider` lookup failure), and an
injector whose bound provider raises a construction error. -/
theorem claim3_none_fallback_witness :
    Inject.get_instance ⟨Option.none⟩ (Key.plainKey 0) false ⟨0⟩
      = .error .noInjectorRegistered ∧
    Inject.get_instance ⟨Option.none⟩ (Key.plainKey 0) true ⟨0⟩
      = .ok (Value.absent, ⟨Option.none⟩, ⟨0⟩) ∧
    Inject.get_instance ⟨some ⟨0, false, []⟩⟩ (Key.plainKey 0) true ⟨0⟩
      = .ok (Value.absent, ⟨some ⟨0, false, []⟩⟩, ⟨0⟩) ∧
    Inject.get_instance
        ⟨some ⟨0, false, [(Key.plainKey 0, Provider.raw ⟨7, true⟩)]⟩⟩
        (Key.plainKey 0) true ⟨0⟩
      = .error (.constructionError 7) :=
  ⟨(claim3_none_fallback (Key.plainKey 0) ⟨0⟩).1,
   (claim3_none_fallback (Key.plainKey 0) ⟨0⟩).2.1,
   (claim3_none_fallback (Key.plainKey 0) ⟨0⟩).2.2.1 ⟨0, false, []⟩ rfl,
   (claim3_none_fallback (Key.plainKey 0) ⟨0⟩).2.2.2
     ⟨0, false, [(Key.plainKey 0, Provider.raw ⟨7, true⟩)]⟩ 7 rfl⟩

/-- C4: the registry slot holds at most one active injector and
registration is last-write-wins: after `register(A)` then `register(B)` for
distinct injectors, `is_registered(A)` is false, `is_registered(B)` is true,
and every subsequent module-level `get_instance` call resolves exactly as a
registry holding only `B`. -/
theorem claim4_register_last_write_wins (r : Registry) (a b : Injector)
    (h : a.id ≠ b.id) :
    is_registered (register (register r a) b) a = false ∧
    is_registered (register (register r a) b) b = true ∧
    ∀ (k : Key) (noneArg : Bool) (s : InvokeState),
      Inject.get_instance (register (register r a) b) k noneArg s
        = Inject.get_instance ⟨some b⟩ k noneArg s := by
  refine ⟨?_, ?_, fun k noneArg s => rfl⟩
  · simp [is_registered, register]
    exact Ne.symm h
  · simp [is_registered, register]

/-- Witness for C4: two concrete injectors with distinct identities. -/
theorem claim4_register_last_write_wins_witness :
    is_registered (register (register ⟨Option.none⟩ ⟨0, false, []⟩) ⟨1, false, []⟩)
      ⟨0, false, []⟩ = false ∧
    is_registered (register (register ⟨Option.none⟩ ⟨0, false, []⟩) ⟨1, false, []⟩)
      ⟨1, false, []⟩ = true :=
  ⟨(claim4_register_last_write_wins ⟨Option.none⟩ ⟨0, false, []⟩ ⟨1, false, []⟩
      (by decide)).1,
   (claim4_register_last_write_wins ⟨Option.none⟩ ⟨0, false, []⟩ ⟨1, false, []⟩
      (by decide)).2.1⟩

/-- C5: with injector `A` active, `unregister(B)` for `B` distinct from `A`
leaves the slot unchanged; `unregister(A)` clears the slot; and
`unregister()` with no argument clears the slot whatever it holds. -/
theorem claim5_guarded_unregister (a b : Injector) (h : b.id ≠ a.id) :
    unregister ⟨some a⟩ (some b) = ⟨some a⟩ ∧
    unregister ⟨some a⟩ (some a) = ⟨Option.none⟩ ∧
    ∀ r : Registry, unregister r Option.none = ⟨Option.none⟩ := by
  refine ⟨?_, ?_, fun r => rfl⟩
  · simp [unregister, Ne.symm h]
  · simp [unregister]

/-- Witness for C5: two concrete injectors with distinct identities. -/
theorem claim5_guarded_unregister_witness :
    unregister ⟨some ⟨0, false, []⟩⟩ (some ⟨1, false, []⟩) = ⟨some ⟨0, false, []⟩⟩ ∧
    unregister ⟨some ⟨0, false, []⟩⟩ (some ⟨0, false, []⟩) = ⟨Option.none⟩ ∧
    unregister ⟨some ⟨1, true, []⟩⟩ Option.none = ⟨Option.none⟩ :=
  ⟨(claim5_guarded_unregister ⟨0, false, []⟩ ⟨1, false, []⟩ (by decide)).1,
   (claim5_guarded_unregister ⟨0, false, []⟩ ⟨1, false, []⟩ (by decide)).2.1,
   (claim5_guarded_unregister ⟨0, false, []⟩ ⟨1, false, []⟩ (by decide)).2.2
     ⟨some ⟨1, true, []⟩⟩⟩

/-- C8: after `bind(K, to=v)` for a non-callable value `v` — with or without
a scope argument — `get_instance(K)` returns exactly the value `v`, leaves
the injector (binding table included) and the fresh-id state unchanged, so
every subsequent call returns `v` as well, independent of the scope. -/
theorem claim8_instance_binding (inj : Injector) (k : Key) (v : Value)
    (scope : Option Scope) (s : InvokeState) :
    (inj.bind k (Target.value v) scope).get_instance k s
      = .ok (v, inj.bind k (Target.value v) scope, s) := by
  have hl : lookupA (setA inj.bindings k (Provider.instval v)) k
      = some (Provider.instval v) := lookupA_setA_self _ _ _
  simp [Injector.bind, make_provider, Injector.get_instance, Injector.get_provider,
        hl, invokeProvider, setA_setA]

/-- C2 counterexample: a function taking only `**kwargs` (code object with
`co_varnames = ("kw",)` and the `0x08` flag set) does not declare a
parameter named `a`, yet `add_injection` succeeds instead of raising
`NoParamError` — the varargs/kwargs flags skip the check entirely. -/
theorem claim2_counterexample :
    ParamInjection.add_injection ⟨⟨["kw"], false, true⟩, []⟩ "a"
        ⟨Key.plainKey 0, false⟩
      = .ok ⟨⟨["kw"], false, true⟩, [("a", ⟨Key.plainKey 0, false⟩)]⟩ := rfl

/-- C2 (amended): `add_injection` raises `NoParamError` exactly when the
wrapped function accepts neither `*args` nor `**kwargs` and the injected
name is not among its code object's variable names; it succeeds when the
name is among the variable names, and also, regardless of the name, when
the function accepts `*args` or `**kwargs`. -/
theorem claim2_no_param_fails_fast (w : Wrapper) (name : String)
    (ip : InjectionPoint) :
    (w.code.co_flags_varargs = false → w.code.co_flags_kwargs = false →
      name ∉ w.code.co_varnames →
      ParamInjection.add_injection w name ip = .error (.noParamError name)) ∧
    (name ∈ w.code.co_varnames →
      ParamInjection.add_injection w name ip
        = .ok { w with injections := setA w.injections name ip }) ∧
    (w.code.co_flags_varargs = true ∨ w.code.co_flags_kwargs = true →
      ParamInjection.add_injection w name ip
        = .ok { w with injections := setA w.injections name ip }) := by
  refine ⟨fun h1 h2 h3 => ?_, fun hmem => ?_, fun hor => ?_⟩
  · simp [ParamInjection.add_injection, h1, h2, h3]
  · by_cases hv : w.code.co_flags_varargs = false ∧ w.code.co_flags_kwargs = false
    · simp [ParamInjection.add_injection, hv, hmem]
    · simp [ParamInjection.add_injection, hv]
  · rcases hor with hv | hk
    · simp [ParamInjection.add_injection, hv]
    · simp [ParamInjection.add_injection, hk]

/-- Witness for C2 (amended): a plain two-parameter function rejects an
undeclared name, accepts a declared one, and a `*args` function accepts an
undeclared name. -/
theorem claim2_no_param_fails_fast_witness :
    ParamInjection.add_injection ⟨⟨["self", "a"], false, false⟩, []⟩ "b"
        ⟨Key.plainKey 1, false⟩
      = .error (.noParamError "b") ∧
    ParamInjection.add_injection ⟨⟨["self", "a"], false, false⟩, []⟩ "a"
        ⟨Key.plainKey 1, false⟩
      = .ok ⟨⟨["self", "a"], false, false⟩, [("a", ⟨Key.plainKey 1, false⟩)]⟩ ∧
    ParamInjection.add_injection ⟨⟨["xs"], true, false⟩, []⟩ "b"
        ⟨Key.plainKey 1, false⟩
      = .ok ⟨⟨["xs"], true, false⟩, [("b", ⟨Key.plainKey 1, false⟩)]⟩ :=
  ⟨(claim2_no_param_fails_fast ⟨⟨["self", "a"], false, false⟩, []⟩ "b"
      ⟨Key.plainKey 1, false⟩).1 rfl rfl (by decide),
   (claim2_no_param_fails_fast ⟨⟨["self", "a"], false, false⟩, []⟩ "a"
      ⟨Key.plainKey 1, false⟩).2.1 (by decide),
   (claim2_no_param_fails_fast ⟨⟨["xs"], true, false⟩, []⟩ "b"
      ⟨Key.plainKey 1, false⟩).2.2 (Or.inl rfl)⟩

/-- C6: `get_provider(k)` returns the stored provider when `k` is bound;
when `k` is unbound it returns the synthesized unscoped call-`k`-directly
provider (the binding table is left untouched — `get_provider` is a pure
function of the injector) exactly when `default_providers` is enabled and
`k` is callable; and it fails with `NoProvider` when `k` is unbound and
either `default_providers` is disabled or `k` is not callable. -/
theorem claim6_get_provider_cases (inj : Injector) (k : Key) :
    (∀ p : Provider, lookupA inj.bindings k = some p →
      inj.get_provider k = .ok p) ∧
    (∀ c : Ctor, lookupA inj.bindings k = Option.none → k.asCtor = some c →
      inj.default_providers = true → inj.get_provider k = .ok (Provider.raw c)) ∧
    (lookupA inj.bindings k = Option.none → inj.default_providers = false →
      inj.get_provider k = .error .noProvider) ∧
    (lookupA inj.bindings k = Option.none → k.asCtor = Option.none →
      inj.get_provider k = .error .noProvider) := by
  refine ⟨fun p hp => ?_, fun c hn hc hd => ?_, fun hn hd => ?_, fun hn hc => ?_⟩
  · simp [Injector.get_provider, hp]
  · simp [Injector.get_provider, hn, hc, hd]
  · cases hck : k.asCtor with
    | none => simp [Injector.get_provider, hn, hck]
    | some c => simp [Injector.get_provider, hn, hck, hd]
  · simp [Injector.get_provider, hn, hc]

/-- Witness for C6: a bound key, an unbound callable key with default
providers enabled, the same with the flag disabled, and an unbound
non-callable key. -/
theorem claim6_get_provider_cases_witness :
    Injector.get_provider ⟨0, false, [(Key.plainKey 0, Provider.instval (Value.str "x"))]⟩
        (Key.plainKey 0)
      = .ok (Provider.instval (Value.str "x")) ∧
    Injector.get_provider ⟨0, true, []⟩ (Key.callableKey ⟨3, false⟩)
      = .ok (Provider.raw ⟨3, false⟩) ∧
    Injector.get_provider ⟨0, false, []⟩ (Key.callableKey ⟨3, false⟩)
      = .error .noProvider ∧
    Injector.get_provider ⟨0, true, []⟩ (Key.plainKey 9)
      = .error .noProvider :=
  ⟨(claim6_get_provider_cases ⟨0, false,
      [(Key.plainKey 0, Provider.instval (Value.str "x"))]⟩ (Key.plainKey 0)).1
      (Provider.instval (Value.str "x")) rfl,
   (claim6_get_provider_cases ⟨0, true, []⟩ (Key.callableKey ⟨3, false⟩)).2.1
      ⟨3, false⟩ rfl rfl rfl,
   (claim6_get_provider_cases ⟨0, false, []⟩ (Key.callableKey ⟨3, false⟩)).2.2.1
      rfl rfl,
   (claim6_get_provider_cases ⟨0, true, []⟩ (Key.plainKey 9)).2.2.2 rfl rfl⟩

/-- C7: after `bind(K, to=Ctor)` with no scope, two successive
`get_instance(K)` calls construct fresh instances with distinct identities
(the fresh-id counter advances on each call because the constructor runs
each time); after `bind(K, to=Ctor, scope=app)`, the first call constructs
an instance and the second call returns the very same instance with the
injector and the fresh-id counter unchanged — the constructor is not
invoked again. -/
theorem claim7_scope_caching (inj : Injector) (k : Key) (c : Ctor) (n : Nat)
    (h : c.fails = false) :
    ((inj.bind k (Target.call c) Option.none).get_instance k ⟨n⟩
        = .ok (Value.obj n, inj.bind k (Target.call c) Option.none, ⟨n + 1⟩) ∧
      (inj.bind k (Target.call c) Option.none).get_instance k ⟨n + 1⟩
        = .ok (Value.obj (n + 1), inj.bind k (Target.call c) Option.none, ⟨n + 2⟩) ∧
      Value.obj n ≠ Value.obj (n + 1)) ∧
    ((inj.bind k (Target.call c) (some Scope.app)).get_instance k ⟨n⟩
        = .ok (Value.obj n,
            ⟨inj.id, inj.default_providers,
              setA inj.bindings k (Provider.appScoped c (some (Value.obj n)))⟩,
            ⟨n + 1⟩) ∧
      Injector.get_instance
          ⟨inj.id, inj.default_providers,
            setA inj.bindings k (Provider.appScoped c (some (Value.obj n)))⟩
          k ⟨n + 1⟩
        = .ok (Value.obj n,
            ⟨inj.id, inj.default_providers,
              setA inj.bindings k (Provider.appScoped c (some (Value.obj n)))⟩,
            ⟨n + 1⟩)) := by
  have hl1 : lookupA (setA inj.bindings k (Provider.raw c)) k
      = some (Provider.raw c) := lookupA_setA_self _ _ _
  have hl2 : lookupA (setA inj.bindings k (Provider.appScoped c Option.none)) k
      = some (Provider.appScoped c Option.none) := lookupA_setA_self _ _ _
  have hl3 : lookupA (setA inj.bindings k
        (Provider.appScoped c (some (Value.obj n)))) k
      = some (Provider.appScoped c (some (Value.obj n))) := lookupA_setA_self _ _ _
  refine ⟨⟨?_, ?_, ?_⟩, ?_, ?_⟩
  · simp [Injector.bind, make_provider, Injector.get_instance, Injector.get_provider,
          hl1, invokeProvider, invokeCtor, h, setA_setA]
  · simp [Injector.bind, make_provider, Injector.get_instance, Injector.get_provider,
          hl1, invokeProvider, invokeCtor, h, setA_setA]
  · simp only [ne_eq, Value.obj.injEq]
    omega
  · simp [Injector.bind, make_provider, Injector.get_instance, Injector.get_provider,
          hl2, invokeProvider, invokeCtor, h, setA_setA]
  · simp [Injector.get_instance, Injector.get_provider, hl3, invokeProvider,
          setA_setA]

/-- Witness for C7: a fresh injector, a plain key, a non-failing
constructor, and the counter starting at zero. -/
theorem claim7_scope_caching_witness :
    ((Injector.bind ⟨0, false, []⟩ (Key.plainKey 0) (Target.call ⟨5, false⟩)
        Option.none).get_instance (Key.plainKey 0) ⟨0⟩
      = .ok (Value.obj 0,
          Injector.bind ⟨0, false, []⟩ (Key.plainKey 0) (Target.call ⟨5, false⟩)
            Option.none, ⟨1⟩) ∧
     (Injector.bind ⟨0, false, []⟩ (Key.plainKey 0) (Target.call ⟨5, false⟩)
        Option.none).get_instance (Key.plainKey 0) ⟨1⟩
      = .ok (Value.obj 1,
          Injector.bind ⟨0, false, []⟩ (Key.plainKey 0) (Target.call ⟨5, false⟩)
            Option.none, ⟨2⟩) ∧
     Value.obj 0 ≠ Value.obj 1) ∧
    ((Injector.bind ⟨0, false, []⟩ (Key.plainKey 0) (Target.call ⟨5, false⟩)
          (some Scope.app)).get_instance (Key.plainKey 0) ⟨0⟩
        = .ok (Value.obj 0,
            ⟨0, false, [(Key.plainKey 0,
              Provider.appScoped ⟨5, false⟩ (some (Value.obj 0)))]⟩, ⟨1⟩) ∧
      Injector.get_instance
          ⟨0, false, [(Key.plainKey 0,
            Provider.appScoped ⟨5, false⟩ (some (Value.obj 0)))]⟩
          (Key.plainKey 0) ⟨1⟩
        = .ok (Value.obj 0,
            ⟨0, false, [(Key.plainKey 0,
              Provider.appScoped ⟨5, false⟩ (some (Value.obj 0)))]⟩, ⟨1⟩)) :=
  claim7_scope_caching ⟨0, false, []⟩ (Key.plainKey 0) ⟨5, false⟩ 0 rfl

theorem runInjections_preserves_given
    (injections : List (String × InjectionPoint)) :
    ∀ (kwargs kw' : List (String × Value)) (r r' : Registry)
      (s s' : InvokeState),
    runInjections injections kwargs r s = .ok (kw', r', s') →
    ∀ (n : String) (v : Value), lookupA kwargs n = some v → v ≠ super_param →
    lookupA kw' n = some v := by
  induction injections with
  | nil =>
    intro kwargs kw' r r' s s' hrun n v hv hne
    simp only [runInjections, Except.ok.injEq, Prod.mk.injEq] at hrun
    obtain ⟨h1, -, -⟩ := hrun
    subst h1; exact hv
  | cons hd rest ih =>
    obtain ⟨name, ip⟩ := hd
    intro kwargs kw' r r' s s' hrun n v hv hne
    simp only [runInjections] at hrun
    cases hl : lookupA kwargs name with
    | some w =>
      simp only [hl] at hrun
      by_cases hw : w = super_param
      · rw [if_pos hw] at hrun
        cases hg : ip.get_instance r s with
        | error e => simp only [hg] at hrun; exact Except.noConfusion hrun
        | ok t =>
          obtain ⟨v', r'', s''⟩ := t
          simp only [hg] at hrun
          by_cases hn : name = n
          · subst hn; rw [hl] at hv
            injection hv with hv'
            exact absurd (hv' ▸ hw) (Ne.symm hne ∘ Eq.symm)
          · have hv2 : lookupA (setA kwargs name v') n = some v := by
              rw [lookupA_setA_ne _ _ _ _ hn]; exact hv
            exact ih _ _ _ _ _ _ hrun n v hv2 hne
      · rw [if_neg hw] at hrun
        exact ih _ _ _ _ _ _ hrun n v hv hne
    | none =>
      simp only [hl] at hrun
      cases hg : ip.get_instance r s with
      | error e => simp only [hg] at hrun; exact Except.noConfusion hrun
      | ok t =>
        obtain ⟨v', r'', s''⟩ := t
        simp only [hg] at hrun
        by_cases hn : name = n
        · subst hn; rw [hl] at hv; cases hv
        · have hv2 : lookupA (setA kwargs name v') n = some v := by
            rw [lookupA_setA_ne _ _ _ _ hn]; exact hv
          exact ih _ _ _ _ _ _ hrun n v hv2 hne

theorem runInjections_frame (injections : List (String × InjectionPoint)) :
    ∀ (kwargs kw' : List (String × Value)) (r r' : Registry)
      (s s' : InvokeState),
    runInjections injections kwargs r s = .ok (kw', r', s') →
    ∀ n : String, n ∉ injections.map Prod.fst →
    lookupA kw' n = lookupA kwargs n := by
  induction injections with
  | nil =>
    intro kwargs kw' r r' s s' hrun n _
    simp only [runInjections, Except.ok.injEq, Prod.mk.injEq] at hrun
    obtain ⟨h1, -, -⟩ := hrun
    subst h1; rfl
  | cons hd rest ih =>
    obtain ⟨name, ip⟩ := hd
    intro kwargs kw' r r' s s' hrun n hnotin
    simp only [List.map_cons, List.mem_cons, not_or] at hnotin
    obtain ⟨hne, hrest⟩ := hnotin
    have hne' : name ≠ n := fun hc => hne hc.symm
    simp only [runInjections] at hrun
    cases hl : lookupA kwargs name with
    | some w =>
      simp only [hl] at hrun
      by_cases hw : w = super_param
      · rw [if_pos hw] at hrun
        cases hg : ip.get_instance r s with
        | error e => simp only [hg] at hrun; exact Except.noConfusion hrun
        | ok t =>
          obtain ⟨v', r'', s''⟩ := t
          simp only [hg] at hrun
          rw [ih _ _ _ _ _ _ hrun n hrest, lookupA_setA_ne _ _ _ _ hne']
      · rw [if_neg hw] at hrun
        exact ih _ _ _ _ _ _ hrun n hrest
    | none =>
      simp only [hl] at hrun
      cases hg : ip.get_instance r s with
      | error e => simp only [hg] at hrun; exact Except.noConfusion hrun
      | ok t =>
        obtain ⟨v', r'', s''⟩ := t
        simp only [hg] at hrun
        rw [ih _ _ _ _ _ _ hrun n hrest, lookupA_setA_ne _ _ _ _ hne']

theorem runInjections_injects (injections : List (String × InjectionPoint)) :
    ∀ (kwargs kw' : List (String × Value)) (r r' : Registry)
      (s s' : InvokeState),
    runInjections injections kwargs r s = .ok (kw', r', s') →
    (injections.map Prod.fst).Nodup →
    ∀ (n : String) (ip : InjectionPoint), (n, ip) ∈ injections →
    (lookupA kwargs n = Option.none ∨ lookupA kwargs n = some super_param) →
    ∃ (v : Value) (r₀ : Registry) (s₀ : InvokeState) (r₁ : Registry)
      (s₁ : InvokeState),
      ip.get_instance r₀ s₀ = .ok (v, r₁, s₁) ∧ lookupA kw' n = some v := by
  induction injections with
  | nil =>
    intro kwargs kw' r r' s s' _ _ n ip hmem
    exact absurd hmem (List.not_mem_nil _)
  | cons hd rest ih =>
    obtain ⟨name, ip₀⟩ := hd
    intro kwargs kw' r r' s s' hrun hnodup n ip hmem habs
    simp only [List.map_cons, List.nodup_cons] at hnodup
    obtain ⟨hhead, hrestnodup⟩ := hnodup
    simp only [runInjections] at hrun
    rcases List.mem_cons.mp hmem with heq | hmemrest
    · obtain ⟨hn, hip⟩ := Prod.mk.injEq .. ▸ heq
      subst hn; subst hip
      cases hl : lookupA kwargs n with
      | some w =>
        simp only [hl] at hrun
        have hw : w = super_param := by
          rcases habs with habs | habs
          · rw [hl] at habs; cases habs
          · rw [hl] at habs; injection habs
        rw [if_pos hw] at hrun
        cases hg : ip.get_instance r s with
        | error e => simp only [hg] at hrun; exact Except.noConfusion hrun
        | ok t =>
          obtain ⟨v', r'', s''⟩ := t
          simp only [hg] at hrun
          refine ⟨v', r, s, r'', s'', hg, ?_⟩
          rw [runInjections_frame rest _ _ _ _ _ _ hrun n hhead,
              lookupA_setA_self]
      | none =>
        simp only [hl] at hrun
        cases hg : ip.get_instance r s with
        | error e => simp only [hg] at hrun; exact Except.noConfusion hrun
        | ok t =>
          obtain ⟨v', r'', s''⟩ := t
          simp only [hg] at hrun
          refine ⟨v', r, s, r'', s'', hg, ?_⟩
          rw [runInjections_frame rest _ _ _ _ _ _ hrun n hhead,
              lookupA_setA_self]
    · have hnname : name ≠ n := by
        intro hc; subst hc
        exact hhead (List.mem_map.mpr ⟨(name, ip), hmemrest, rfl⟩)
      cases hl : lookupA kwargs name with
      | some w =>
        simp only [hl] at hrun
        by_cases hw : w = super_param
        · rw [if_pos hw] at hrun
          cases hg : ip₀.get_instance r s with
          | error e => simp only [hg] at hrun; exact Except.noConfusion hrun
          | ok t =>
            obtain ⟨v', r'', s''⟩ := t
            simp only [hg] at hrun
            refine ih _ _ _ _ _ _ hrun hrestnodup n ip hmemrest ?_
            rw [lookupA_setA_ne _ _ _ _ hnname]
            exact habs
        · rw [if_neg hw] at hrun
          exact ih _ _ _ _ _ _ hrun hrestnodup n ip hmemrest habs
      | none =>
        simp only [hl] at hrun
        cases hg : ip₀.get_instance r s with
        | error e => simp only [hg] at hrun; exact Except.noConfusion hrun
        | ok t =>
          obtain ⟨v', r'', s''⟩ := t
          simp only [hg] at hrun
          refine ih _ _ _ _ _ _ hrun hrestnodup n ip hmemrest ?_
          rw [lookupA_setA_ne _ _ _ _ hnname]
          exact habs

/-- C9: when a `ParamInjection`-wrapped function is called, every registered
injected name that is absent from the keyword arguments or passed with the
`super_param` sentinel is set, before the wrapped function runs, to a value
obtained by resolving that name's injection point; a name passed as a
keyword with any other value is left unchanged, names without a registered
injection are untouched, and positional arguments are never inspected (they
are passed through unchanged, so a positionally supplied parameter is not
recognized as given and its name is injected as a keyword argument anyway —
the wrapper's keyword output is the same whatever `args` holds). -/
theorem claim9_wrapper_kwargs (injections : List (String × InjectionPoint))
    (args : List Value) (kwargs : List (String × Value)) (r r' : Registry)
    (s s' : InvokeState) (rec : CallRecord)
    (hnodup : (injections.map Prod.fst).Nodup)
    (hok : injection_wrapper injections args kwargs r s = .ok (rec, r', s')) :
    rec.args = args ∧
    (∀ (n : String) (v : Value), lookupA kwargs n = some v →
      v ≠ super_param → lookupA rec.kwargs n = some v) ∧
    (∀ n : String, n ∉ injections.map Prod.fst →
      lookupA rec.kwargs n = lookupA kwargs n) ∧
    (∀ (n : String) (ip : InjectionPoint), (n, ip) ∈ injections →
      (lookupA kwargs n = Option.none ∨ lookupA kwargs n = some super_param) →
      ∃ (v : Value) (r₀ : Registry) (s₀ : InvokeState) (r₁ : Registry)
        (s₁ : InvokeState),
        ip.get_instance r₀ s₀ = .ok (v, r₁, s₁) ∧
        lookupA rec.kwargs n = some v) := by
  unfold injection_wrapper at hok
  cases hr : runInjections injections kwargs r s with
  | error e =>
    rw [hr] at hok; exact Except.noConfusion hok
  | ok t =>
    obtain ⟨kw1, r1, s1⟩ := t
    simp only [hr, Except.ok.injEq, Prod.mk.injEq] at hok
    obtain ⟨h1, -, -⟩ := hok
    subst h1
    refine ⟨rfl, ?_, ?_, ?_⟩
    · exact fun n v hv hne =>
        runInjections_preserves_given injections _ _ _ _ _ _ hr n v hv hne
    · exact fun n hn => runInjections_frame injections _ _ _ _ _ _ hr n hn
    · exact fun n ip hmem habs =>
        runInjections_injects injections _ _ _ _ _ _ hr hnodup n ip hmem habs

/-- Witness for C9: three injected names `a`, `b`, `c`; `b` is given a real
keyword value and stays, `c` is given `super_param` and is overwritten by
its resolution, `a` is absent and injected, and an unrelated name `z` is
untouched. -/
theorem claim9_wrapper_kwargs_witness :
    CallRecord.args ⟨[Value.obj 99],
        [("b", Value.str "given"), ("c", Value.str "vc"),
         ("a", Value.str "va")]⟩ = [Value.obj 99] ∧
    lookupA [("b", Value.str "given"), ("c", Value.str "vc"),
        ("a", Value.str "va")] "b" = some (Value.str "given") ∧
    lookupA [("b", Value.str "given"), ("c", Value.str "vc"),
        ("a", Value.str "va")] "z"
      = lookupA [("b", Value.str "given"), ("c", Value.superParamV)] "z" := by
  have h := claim9_wrapper_kwargs
    [("a", ⟨Key.plainKey 1, false⟩), ("b", ⟨Key.plainKey 2, false⟩),
     ("c", ⟨Key.plainKey 3, false⟩)]
    [Value.obj 99]
    [("b", Value.str "given"), ("c", Value.superParamV)]
    ⟨some ⟨0, false, [(Key.plainKey 1, Provider.instval (Value.str "va")),
      (Key.plainKey 3, Provider.instval (Value.str "vc"))]⟩⟩
    ⟨some ⟨0, false, [(Key.plainKey 1, Provider.instval (Value.str "va")),
      (Key.plainKey 3, Provider.instval (Value.str "vc"))]⟩⟩
    ⟨0⟩ ⟨0⟩
    ⟨[Value.obj 99],
     [("b", Value.str "given"), ("c", Value.str "vc"), ("a", Value.str "va")]⟩
    (by decide) rfl
  exact ⟨h.1, h.2.1 "b" (Value.str "given") rfl (by decide),
         h.2.2.1 "z" (by decide)⟩

/-- C10: with `reinject` false, the first attribute access on an instance
whose `__dict__` does not yet hold the attribute resolves the dependency and
stores the resolved object in the instance `__dict__` under the attribute's
name; because these descriptors define only `__get__`, the stored entry
shadows them, so the second access returns the stored object with the
registry and fresh-id state unchanged — no new resolution. With `reinject`
true, the access leaves the instance unchanged and every access goes through
the descriptor's `__get__`, resolving anew. Stated for both
`AttributeInjection` (attribute name discovered from the owner on first use)
and `NamedAttributeInjection` (attribute name fixed at construction). -/
theorem claim10_reinject_caching (ip : InjectionPoint) (name : String)
    (inst : PyInstance) (r r' : Registry) (s s' : InvokeState) (v : Value)
    (hres : ip.get_instance r s = .ok (v, r', s'))
    (hfirst : lookupA inst.dict name = Option.none) :
    (getattrAttributeInjection name ⟨Option.none, false, ip⟩ inst r s
        = .ok (v, ⟨some name, false, ip⟩, ⟨setA inst.dict name v⟩, r', s') ∧
      getattrAttributeInjection name ⟨some name, false, ip⟩
          ⟨setA inst.dict name v⟩ r' s'
        = .ok (v, ⟨some name, false, ip⟩, ⟨setA inst.dict name v⟩, r', s')) ∧
    (getattrAttributeInjection name ⟨Option.none, true, ip⟩ inst r s
        = .ok (v, ⟨some name, true, ip⟩, inst, r', s') ∧
      getattrAttributeInjection name ⟨some name, true, ip⟩ inst r' s'
        = AttributeInjection.descGet ⟨some name, true, ip⟩ name inst r' s') ∧
    (getattrNamedAttributeInjection ⟨name, false, ip⟩ inst r s
        = .ok (v, ⟨setA inst.dict name v⟩, r', s') ∧
      getattrNamedAttributeInjection ⟨name, false, ip⟩
          ⟨setA inst.dict name v⟩ r' s'
        = .ok (v, ⟨setA inst.dict name v⟩, r', s')) ∧
    (getattrNamedAttributeInjection ⟨name, true, ip⟩ inst r s
        = .ok (v, inst, r', s') ∧
      getattrNamedAttributeInjection ⟨name, true, ip⟩ inst r' s'
        = NamedAttributeInjection.descGet ⟨name, true, ip⟩ inst r' s') := by
  refine ⟨⟨?_, ?_⟩, ⟨?_, ?_⟩, ⟨?_, ?_⟩, ⟨?_, ?_⟩⟩
  · simp [getattrAttributeInjection, AttributeInjection.descGet, hfirst, hres]
  · simp [getattrAttributeInjection, lookupA_setA_self]
  · simp [getattrAttributeInjection, AttributeInjection.descGet, hfirst, hres]
  · simp [getattrAttributeInjection, hfirst]
  · simp [getattrNamedAttributeInjection, NamedAttributeInjection.descGet,
          hfirst, hres]
  · simp [getattrNamedAttributeInjection, lookupA_setA_self]
  · simp [getattrNamedAttributeInjection, NamedAttributeInjection.descGet,
          hfirst, hres]
  · simp [getattrNamedAttributeInjection, hfirst]

/-- Witness for C10: a registry resolving the key to a fixed dependency
value, an instance with an empty `__dict__`, and attribute name `a`. -/
theorem claim10_reinject_caching_witness :
    (getattrAttributeInjection "a"
        ⟨Option.none, false, ⟨Key.plainKey 0, false⟩⟩ ⟨[]⟩
        ⟨some ⟨0, false, [(Key.plainKey 0, Provider.instval (Value.str "dep"))]⟩⟩
        ⟨0⟩
      = .ok (Value.str "dep", ⟨some "a", false, ⟨Key.plainKey 0, false⟩⟩,
          ⟨[("a", Value.str "dep")]⟩,
          ⟨some ⟨0, false, [(Key.plainKey 0, Provider.instval (Value.str "dep"))]⟩⟩,
          ⟨0⟩) ∧
      getattrAttributeInjection "a"
          ⟨some "a", false, ⟨Key.plainKey 0, false⟩⟩ ⟨[("a", Value.str "dep")]⟩
          ⟨some ⟨0, false, [(Key.plainKey 0, Provider.instval (Value.str "dep"))]⟩⟩
          ⟨0⟩
        = .ok (Value.str "dep", ⟨some "a", false, ⟨Key.plainKey 0, false⟩⟩,
            ⟨[("a", Value.str "dep")]⟩,
            ⟨some ⟨0, false, [(Key.plainKey 0, Provider.instval (Value.str "dep"))]⟩⟩,
            ⟨0⟩)) ∧
    (getattrAttributeInjection "a"
        ⟨Option.none, true, ⟨Key.plainKey 0, false⟩⟩ ⟨[]⟩
        ⟨some ⟨0, false, [(Key.plainKey 0, Provider.instval (Value.str "dep"))]⟩⟩
        ⟨0⟩
      = .ok (Value.str "dep", ⟨some "a", true, ⟨Key.plainKey 0, false⟩⟩, ⟨[]⟩,
          ⟨some ⟨0, false, [(Key.plainKey 0, Provider.instval (Value.str "dep"))]⟩⟩,
          ⟨0⟩) ∧
      getattrAttributeInjection "a"
          ⟨some "a", true, ⟨Key.plainKey 0, false⟩⟩ ⟨[]⟩
          ⟨some ⟨0, false, [(Key.plainKey 0, Provider.instval (Value.str "dep"))]⟩⟩
          ⟨0⟩
        = AttributeInjection.descGet ⟨some "a", true, ⟨Key.plainKey 0, false⟩⟩
            "a" ⟨[]⟩
            ⟨some ⟨0, false, [(Key.plainKey 0, Provider.instval (Value.str "dep"))]⟩⟩
            ⟨0⟩) ∧
    (getattrNamedAttributeInjection ⟨"a", false, ⟨Key.plainKey 0, false⟩⟩ ⟨[]⟩
        ⟨some ⟨0, false, [(Key.plainKey 0, Provider.instval (Value.str "dep"))]⟩⟩
        ⟨0⟩
      = .ok (Value.str "dep", ⟨[("a", Value.str "dep")]⟩,
          ⟨some ⟨0, false, [(Key.plainKey 0, Provider.instval (Value.str "dep"))]⟩⟩,
          ⟨0⟩) ∧
      getattrNamedAttributeInjection ⟨"a", false, ⟨Key.plainKey 0, false⟩⟩
          ⟨[("a", Value.str "dep")]⟩
          ⟨some ⟨0, false, [(Key.plainKey 0, Provider.instval (Value.str "dep"))]⟩⟩
          ⟨0⟩
        = .ok (Value.str "dep", ⟨[("a", Value.str "dep")]⟩,
            ⟨some ⟨0, false, [(Key.plainKey 0, Provider.instval (Value.str "dep"))]⟩⟩,
            ⟨0⟩)) ∧
    (getattrNamedAttributeInjection ⟨"a", true, ⟨Key.plainKey 0, false⟩⟩ ⟨[]⟩
        ⟨some ⟨0, false, [(Key.plainKey 0, Provider.instval (Value.str "dep"))]⟩⟩
        ⟨0⟩
      = .ok (Value.str "dep", ⟨[]⟩,
          ⟨some ⟨0, false, [(Key.plainKey 0, Provider.instval (Value.str "dep"))]⟩⟩,
          ⟨0⟩) ∧
      getattrNamedAttributeInjection ⟨"a", true, ⟨Key.plainKey 0, false⟩⟩ ⟨[]⟩
          ⟨some ⟨0, false, [(Key.plainKey 0, Provider.instval (Value.str "dep"))]⟩⟩
          ⟨0⟩
        = NamedAttributeInjection.descGet ⟨"a", true, ⟨Key.plainKey 0, false⟩⟩
            ⟨[]⟩
            ⟨some ⟨0, false, [(Key.plainKey 0, Provider.instval (Value.str "dep"))]⟩⟩
            ⟨0⟩) :=
  claim10_reinject_caching ⟨Key.plainKey 0, false⟩ "a" ⟨[]⟩
    ⟨some ⟨0, false, [(Key.plainKey 0, Provider.instval (Value.str "dep"))]⟩⟩
    ⟨some ⟨0, false, [(Key.plainKey 0, Provider.instval (Value.str "dep"))]⟩⟩
    ⟨0⟩ ⟨0⟩ (Value.str "dep") rfl rfl

end Inject
